import Mathlib

/-!
Verification of the color service (src/services/colors.js) of the iro
repository: a shallow embedding of its data model and operations in Lean 4.

JavaScript values flowing through the service are modelled by `JValue`
(strings, numbers with an explicit NaN, arrays, undefined); JS numbers are
modelled by exact rationals (`ℚ`, with `Option ℚ` where NaN can arise).
Code that can throw a TypeError (property access or method call on
`undefined`) is modelled in `Except Err`.

The `converter` module (src/services/converter.js) and the `gradstop`
package are collaborators of colors.js that are not part of the sources
under verification; they are modelled as explicit parameters
(`Converter`, `GradStop`), constrained only where the specification
states a contract for them.  The `normalize` helper of
src/services/utils.js is likewise absent and is modelled from the spec.
-/

namespace Iro

/-- Error messages of modelled JS TypeErrors. -/
abbrev Err := String

/-- Model of the JavaScript values the color service manipulates:
strings, numbers (exact rationals), NaN, arrays, and `undefined`. -/
inductive JValue where
  | vstr (s : String)
  | vnum (q : ℚ)
  | vnan
  | varr (l : List JValue)
  | vundef

open JValue

/-- Whitespace characters stripped by JS `Number(string)` (the common
StrWhiteSpace characters: space, tab, LF, CR, VT, FF, NBSP). -/
def jsWsChar (c : Char) : Bool :=
  c = ' ' || c = '\t' || c = '\n' || c = '\r' || c = '\x0b' || c = '\x0c' || c = ' '

/-- JS hexadecimal digit. -/
def isHexDigitB (c : Char) : Bool :=
  c.isDigit || ('a' ≤ c && c ≤ 'f') || ('A' ≤ c && c ≤ 'F')

/-- Numeric value of a hexadecimal digit. -/
def hexDigitVal (c : Char) : ℕ :=
  if c.isDigit then c.toNat - '0'.toNat
  else if 'a' ≤ c && c ≤ 'f' then c.toNat - 'a'.toNat + 10
  else if 'A' ≤ c && c ≤ 'F' then c.toNat - 'A'.toNat + 10
  else 0

/-- Value of a string of hexadecimal digits. -/
def hexDigitsVal (l : List Char) : ℕ :=
  l.foldl (fun acc c => 16 * acc + hexDigitVal c) 0

/-- Drop trailing JS whitespace from a character list. -/
def trimTrailingWs (l : List Char) : List Char :=
  (l.reverse.dropWhile jsWsChar).reverse

/-- Drop leading and trailing JS whitespace. -/
def jsTrimWs (l : List Char) : List Char :=
  trimTrailingWs (l.dropWhile jsWsChar)

/-- Value of a string of decimal digits. -/
def decDigitsVal (l : List Char) : ℕ :=
  l.foldl (fun acc c => 10 * acc + (c.toNat - '0'.toNat)) 0

/-- Parse an unsigned decimal numeral, optionally with a fractional part
(`digits`, `digits.digits`, `.digits`, `digits.`). -/
def parseDecimal (l : List Char) : Option ℚ :=
  let ip := l.takeWhile Char.isDigit
  let rest := l.drop ip.length
  match rest with
  | [] => if ip.isEmpty then none else some (decDigitsVal ip)
  | '.' :: fp =>
      if fp.all Char.isDigit && !(ip.isEmpty && fp.isEmpty) then
        some ((decDigitsVal ip : ℚ) + (decDigitsVal fp : ℚ) / (10 : ℚ) ^ fp.length)
      else none
  | _ => none

/-- Model of JS `Number(string)` (`none` = NaN): whitespace is trimmed
from both ends; the empty string is 0; a `0x`/`0X` prefix introduces a
hexadecimal numeral; otherwise an optionally signed decimal numeral with
an optional fractional part.  (Exponents and `Infinity`, which no
modelled code path produces, map to NaN.) -/
def jsStringToNumber (s : String) : Option ℚ :=
  let t := jsTrimWs s.data
  if t.isEmpty then some 0
  else
    match t with
    | '0' :: 'x' :: rest =>
        if !rest.isEmpty && rest.all isHexDigitB then some (hexDigitsVal rest) else none
    | '0' :: 'X' :: rest =>
        if !rest.isEmpty && rest.all isHexDigitB then some (hexDigitsVal rest) else none
    | '-' :: rest => (parseDecimal rest).map (fun q => -q)
    | '+' :: rest => parseDecimal rest
    | _ => parseDecimal t

/-- Model of JS number-to-string conversion.  Exact for integers (the
only numbers the modelled paths render); non-integers are rendered as
`num/den`, a representation no theorem below depends on. -/
def jsNumToString (q : ℚ) : String :=
  if q.den = 1 then toString q.num else toString q.num ++ "/" ++ toString q.den

/-- Model of JS string conversion for the primitive values. -/
def jsPrimToString : JValue → String
  | vstr s => s
  | vnum q => jsNumToString q
  | vnan => "NaN"
  | vundef => "undefined"
  | varr _ => ""

/-- Rendering of one array element inside `Array.prototype.join` /
`Array.prototype.toString` (undefined renders as the empty string;
nested arrays, which no modelled path produces, render shallowly). -/
def jsJoinElemToString : JValue → String
  | vundef => ""
  | varr l => String.intercalate "," (l.map jsPrimToString)
  | v => jsPrimToString v

/-- Model of JS string conversion (template literals, `String(v)`).
Arrays render as their comma-join. -/
def jsValToString : JValue → String
  | varr l => String.intercalate "," (l.map jsJoinElemToString)
  | v => jsPrimToString v

/-- Model of JS `ToNumber` (`none` = NaN). Arrays coerce through their
string rendering. -/
def jsToNumber : JValue → Option ℚ
  | vnum q => some q
  | vnan => none
  | vundef => none
  | vstr s => jsStringToNumber s
  | varr l => jsStringToNumber (jsValToString (varr l))

/-- Per-channel upper bound of the hsl model:
`inputMaxLength(i)` = `[360, 100, 100][i]` (getColorProperties). -/
def hslMaxAt (i : ℕ) : ℚ := ([360, 100, 100].getD i 0 : ℚ)

/-- The unwrapping step at the head of the hex validation case: a
single-element object (`value.length == hex.inputLength`, which is 1)
is replaced by its first element. -/
def unwrapHex : JValue → JValue
  | varr [x] => x
  | v => v

/-- Shallow embedding of `colorValidate` (colors.js lines 12-62).
Returns `some b` for the four recognized model tags and `none`
(JS `undefined`, the fall-through `default: break`) otherwise. -/
def colorValidate (from_ : String) (value : JValue) : Option Bool :=
  match from_ with
  | "hex" =>
      some (match unwrapHex value with
        | vstr s => s.length = 6 && !(jsStringToNumber ("0x" ++ s)).isNone
        | _ => false)
  | "rgb" =>
      some (match value with
        | varr l =>
            if l.length = 3 then
              (l.filter (fun item => match item with
                | vnum q => decide (q ≤ 255)
                | _ => false)).length = 3
            else false
        | _ => false)
  | "hsl" =>
      some (match value with
        | varr l =>
            if l.length = 3 then
              (l.enum.filter (fun p => match p.2 with
                | vnum q => decide (q ≤ hslMaxAt p.1)
                | _ => false)).length = 3
            else false
        | _ => false)
  | "cmyk" =>
      some (match value with
        | varr l =>
            if l.length = 4 then
              (l.filter (fun item => match item with
                | vnum q => decide (q ≤ 100)
                | _ => false)).length = 4
            else false
        | _ => false)
  | _ => none

/-- The hex-validity characterization the (amended) spec sentence
describes: after unwrapping a singleton sequence, the value is a string
of length exactly 6 whose trailing whitespace-trimmed body is nonempty
and consists only of hexadecimal digits (JS `Number` trims trailing
whitespace before the hex parse). -/
def hexValidSpec (value : JValue) : Bool :=
  match unwrapHex value with
  | vstr s =>
      s.length = 6 && !(trimTrailingWs s.data).isEmpty
        && (trimTrailingWs s.data).all isHexDigitB
  | _ => false

/-! ## Converter Facade -/

/-- The four color models. -/
inductive Model where
  | hex | rgb | hsl | cmyk
deriving DecidableEq

/-- The string tag of a model, as used by the JS string-keyed dispatch. -/
def tagOf : Model → String
  | .hex => "hex"
  | .rgb => "rgb"
  | .hsl => "hsl"
  | .cmyk => "cmyk"

/-- The external converter collaborator (`import * as converter from
"./converter"`, a repository file not among the sources):
`Converter m m'` models `converter.<tagOf m>.to<M'>`. -/
def Converter := Model → Model → JValue → JValue

/-- The four-way representation bundle assembled by `colorConvert`. -/
structure ColorSet where
  hex : JValue
  rgb : JValue
  hsl : JValue
  cmyk : JValue

/-- Field of a `ColorSet` named by a model. -/
def ColorSet.field (s : ColorSet) : Model → JValue
  | .hex => s.hex
  | .rgb => s.rgb
  | .hsl => s.hsl
  | .cmyk => s.cmyk

/-- Shallow embedding of `colorConvert` (colors.js lines 69-102):
switches on the model tag, places the input verbatim under its own key
and fills the other three keys from the converter collaborator; an
unrecognized tag falls through to `undefined` (`none`). -/
def colorConvert (c : Converter) (type : String) (value : JValue) : Option ColorSet :=
  match type with
  | "hex" => some ⟨value, c .hex .rgb value, c .hex .hsl value, c .hex .cmyk value⟩
  | "rgb" => some ⟨c .rgb .hex value, value, c .rgb .hsl value, c .rgb .cmyk value⟩
  | "hsl" => some ⟨c .hsl .hex value, c .hsl .rgb value, value, c .hsl .cmyk value⟩
  | "cmyk" => some ⟨c .cmyk .hex value, c .cmyk .rgb value, c .cmyk .hsl value, value⟩
  | _ => none

/-- The value the assembled `ColorSet` holds under model `m'` when the
input was of model `m`: the input itself on the diagonal, a converter
call off it. -/
def convVal (c : Converter) (m m' : Model) (v : JValue) : JValue :=
  if m' = m then v else c m m' v

/-- Modelled from the spec: the conversion-consistency contract of the
converter collaborator (§6 "losslessly to the precision needed for
round-trip stability", §3 "all four fields … mutually consistent").
Converting a valid value of model `m` to `m'` and on to `m''` agrees
with converting it to `m''` directly (and returns it unchanged when
`m'' = m`). -/
def Coherent (c : Converter) : Prop :=
  ∀ m m' m'' : Model, ∀ v : JValue,
    colorValidate (tagOf m) v = some true →
    c m' m'' (c m m' v) = if m'' = m then v else c m m'' v

/-! ## Contrast Engine: YIQ heuristic -/

/-- The `{yiq, result}` record of `yiqContrastRatio` (`yiq = none`
models NaN). -/
structure ContrastResult where
  yiq : Option ℚ
  result : String
deriving DecidableEq

/-- JS array destructuring `[r, g, b] = v`: arrays yield their first
three elements (missing ones `undefined`), strings destructure into
their characters, anything else throws a TypeError. -/
def jsDestructure3 : JValue → Except Err (JValue × JValue × JValue)
  | varr l => .ok (l.getD 0 vundef, l.getD 1 vundef, l.getD 2 vundef)
  | vstr s => .ok ((s.data.map (fun c => vstr (String.mk [c]))).getD 0 vundef,
                   (s.data.map (fun c => vstr (String.mk [c]))).getD 1 vundef,
                   (s.data.map (fun c => vstr (String.mk [c]))).getD 2 vundef)
  | _ => .error "TypeError: value is not iterable"

/-- Shallow embedding of `yiqContrastRatio` (colors.js lines 108-116):
`yiq = (r*299 + g*587 + b*114) / 1000`, `result` is `"black"` iff
`yiq >= 128` (NaN compares false, giving `"white"`). -/
def yiqContrastRatio (rgb : JValue) : Except Err ContrastResult :=
  match jsDestructure3 rgb with
  | .error e => .error e
  | .ok (r, g, b) =>
      let yiq : Option ℚ :=
        match jsToNumber r, jsToNumber g, jsToNumber b with
        | some x, some y, some z => some ((x * 299 + y * 587 + z * 114) / 1000)
        | _, _, _ => none
      .ok ⟨yiq, match yiq with
        | some q => if q ≥ 128 then "black" else "white"
        | none => "white"⟩

/-! ## Gradient seed construction -/

/-- The argument record of the external `gradstop` collaborator. -/
structure GradInput where
  stops : ℕ
  inputFormat : String
  colorArray : List JValue

/-- The external gradient-interpolation collaborator (§6): a function
from a `GradInput` to a sequence of color strings. -/
def GradStop := GradInput → List String

/-- JS indexing `l[i]` into an array of strings: `undefined` when out of
range. -/
def gIdx (l : List String) (i : ℕ) : JValue :=
  if h : i < l.length then vstr l[i] else vundef

/-- JS `Array.prototype.join(sep)`: throws a TypeError on non-arrays
(`join` is not a function / not a property of `undefined`). -/
def jsJoin (v : JValue) (sep : String) : Except Err String :=
  match v with
  | varr l => .ok (String.intercalate sep (l.map jsJoinElemToString))
  | _ => .error "TypeError: join is not a function"

/-- Shallow embedding of `generateGrandients` (colors.js lines 132-149):
an empty sequence when the hex fails validation; otherwise an 8-stop hex
ramp anchored at `#212121`, the input and `#FFFFFF`, re-anchored in rgb
space at its stops 1 and 6 around the input's rgb rendering. -/
def generateGrandients (g : GradStop) (c : Converter) (hex : JValue) :
    Except Err (List String) :=
  match colorValidate "hex" hex with
  | some true =>
      let rgbColor := c .hex .rgb hex
      let hexResult := g ⟨8, "hex", [vstr "#212121", vstr ("#" ++ jsValToString hex),
                                     vstr "#FFFFFF"]⟩
      match jsJoin rgbColor "," with
      | .error e => .error e
      | .ok joined =>
          .ok (g ⟨8, "rgb", [gIdx hexResult 1, vstr ("rgb(" ++ joined ++ ")"),
                             gIdx hexResult 6]⟩)
  | _ => .ok []

/-! ## Theme derivation pipeline -/

/-- Round to the nearest integer (half up). -/
def qRound (q : ℚ) : ℤ := ⌊q + 1 / 2⌋

/-- Modelled from the spec: the `normalize` helper of
src/services/utils.js (a repository file not among the sources), §6:
coerces a sequence of possibly fractional or string-typed channel values
to clean integers (ToNumber with NaN as 0, rounded); non-sequences yield
an empty sequence. -/
def normalize (v : JValue) : List ℤ :=
  match v with
  | varr l => l.map (fun x => qRound ((jsToNumber x).getD 0))
  | _ => []

/-- `getColorProperties("rgb").toString` (colors.js lines 276-278):
`rgb(` + the normalized channels joined by `", "` + `)`. -/
def rgbToString (v : JValue) : String :=
  "rgb(" ++ String.intercalate ", " ((normalize v).map toString) ++ ")"

/-- Calling a string method (`.replace`) on a value: throws a TypeError
unless the value is a string. -/
def jsAsString : JValue → Except Err String
  | vstr s => .ok s
  | vundef => .error "TypeError: Cannot read properties of undefined (reading replace)"
  | _ => .error "TypeError: replace is not a function"

/-- JS `String.prototype.replace(pat, rep)` with a string pattern:
replaces the first occurrence only. -/
def jsReplaceFirst (s pat rep : String) : String :=
  match s.splitOn pat with
  | [] => s
  | [_] => s
  | p :: rest => p ++ rep ++ String.intercalate pat rest

/-- `getColorProperties("rgb").toArray` (colors.js lines 283-291):
strips `rgb(`, `)` and the first space, splits on commas and normalizes.
Throws when the value is not a string. -/
def rgbToArray (v : JValue) : Except Err (List ℤ) :=
  match jsAsString v with
  | .error e => .error e
  | .ok s =>
      let s1 := jsReplaceFirst s "rgb(" ""
      let s2 := jsReplaceFirst s1 ")" ""
      let s3 := jsReplaceFirst s2 " " ""
      .ok (normalize (varr ((s3.splitOn ",").map vstr)))

/-- The `variable` bundle of the Theme (normalized rgb triples). -/
structure ThemeVars where
  primary : List ℤ
  secondary : List ℤ
  text : List ℤ
  contrast : List ℤ
deriving DecidableEq

/-- The Theme record returned by `generateCssColor`.  `varBundle` models
the `variable` field of the source. -/
structure Theme where
  colors : ColorSet
  contrast : ContrastResult
  gradients : List String
  cssVariable : List String
  varBundle : ThemeVars

/-- Shallow embedding of `generateCssColor` (colors.js lines 193-244),
propagating the TypeErrors the JS code can throw (property access on an
absent `colorConvert` result, destructuring a non-iterable rgb value,
`.replace` on an absent gradient stop).  Note the in-place
`gradients.reverse()` of line 231: the returned `gradients` field is the
reversed sequence. -/
def generateCssColor (c : Converter) (g : GradStop) (type : String) (value : JValue) :
    Except Err Theme :=
  match colorConvert c type value with
  | none => .error "TypeError: Cannot read properties of undefined (reading rgb)"
  | some colors =>
    match yiqContrastRatio colors.rgb with
    | .error e => .error e
    | .ok contrast =>
      match generateGrandients g c colors.hex with
      | .error e => .error e
      | .ok gradients =>
        let textColor := if contrast.result = "black" then gIdx gradients 7
                         else vstr (rgbToString colors.rgb)
        let secondaryColor := if contrast.result = "black" then gIdx gradients 1
                              else gIdx gradients 7
        let darkColor := if contrast.result = "black" then gIdx gradients 7
                         else gIdx gradients 1
        match jsAsString darkColor with
        | .error e => .error e
        | .ok dk =>
          let darkTransparent := jsReplaceFirst (jsReplaceFirst dk "rgb" "rgba")
                                   ")" ", 0.98)"
          let cssPairs : List (String × JValue) :=
            [("primary-color", vstr (rgbToString colors.rgb)),
             ("secondary-color", secondaryColor),
             ("text-color", textColor),
             ("dark-color", darkColor),
             ("dark-transparent-color", vstr darkTransparent),
             ("contrast-color", vstr contrast.result)]
          match rgbToArray secondaryColor with
          | .error e => .error e
          | .ok secondaryArr =>
            match rgbToArray textColor with
            | .error e => .error e
            | .ok textArr =>
              -- the `name !== null` filter keeps every entry (all names
              -- are string literals), then each pair renders as a
              -- `--name: value;` declaration
              let cssDecls := cssPairs.map
                (fun p => "--" ++ p.1 ++ ": " ++ jsValToString p.2 ++ ";")
              -- `gradients.reverse()` mutates the array in place; the
              -- loop numbers the reversed stops 100, 200, …
              let rev := gradients.reverse
              let cssVariable := cssDecls ++ rev.enum.map
                (fun p => "--gradient-" ++ toString ((p.1 + 1) * 100) ++ ": " ++ p.2 ++ ";")
              .ok { colors := colors, contrast := contrast,
                    gradients := rev, cssVariable := cssVariable,
                    varBundle := { primary := normalize colors.rgb,
                                   secondary := secondaryArr,
                                   text := textArr,
                                   contrast := if contrast.result = "black"
                                               then [0, 0, 0] else [255, 255, 255] } }

/-- The record returned by `calculateColor` (colors.js lines 166-191). -/
structure CalcResult where
  colors : ColorSet
  contrast : ContrastResult
  gradients : List String
  varBundle : ThemeVars

/-- The value computed and returned by `calculateColor` (colors.js lines
166-191).  Its writes to `document.body` (style text, transition,
`dark` class toggle) mutate the excluded UI surface and do not influence
the returned value; `animated` only affects those writes.  The second
in-place `gradients.reverse()` restores the pre-reversal order in the
returned record. -/
def calculateColorPure (c : Converter) (g : GradStop) (type : String) (value : JValue)
    (_animated : Bool) : Except Err CalcResult :=
  match generateCssColor c g type value with
  | .error e => .error e
  | .ok t => .ok ⟨t.colors, t.contrast, t.gradients.reverse, t.varBundle⟩

/-! ## Contrast Engine: relative luminance and WCAG ratio -/

/-- Modelled from the spec: `converter.hex.toRgb` of the absent
src/services/converter.js, restricted to what `calculateContrast` needs
(§4.4, §6): a 6-digit hex string parses into its three 8-bit channels. -/
def hexToRgbSpec (s : String) : ℚ × ℚ × ℚ :=
  match s.data with
  | [a, b, c, d, e, f] =>
      ((hexDigitsVal [a, b] : ℚ), (hexDigitsVal [c, d] : ℚ), (hexDigitsVal [e, f] : ℚ))
  | _ => (0, 0, 0)

/-- An argument of `calculateContrast`: an rgb triple or a hex string. -/
inductive CInput where
  | triple (r g b : ℚ)
  | hexStr (s : String)

/-- The hex-to-rgb resolution at the top of `calculateContrast` (lines
339-344): strings go through the converter collaborator's hex-to-rgb
function (the `hconv` parameter), triples pass unchanged. -/
def resolveInput (hconv : String → ℚ × ℚ × ℚ) : CInput → ℚ × ℚ × ℚ
  | .triple r g b => (r, g, b)
  | .hexStr s => hconv s

/-- One channel of `getLuminance` (colors.js lines 325-328): normalize
to [0,1] and apply the piecewise sRGB-to-linear transform. -/
noncomputable def chanLin (v : ℚ) : ℝ :=
  if (v : ℝ) / 255 ≤ 0.03928 then ((v : ℝ) / 255) / 12.92
  else (((v : ℝ) / 255 + 0.055) / 1.055) ^ (2.4 : ℝ)

/-- Shallow embedding of `getLuminance` (colors.js lines 324-330). -/
noncomputable def getLuminance (t : ℚ × ℚ × ℚ) : ℝ :=
  chanLin t.1 * 0.2126 + chanLin t.2.1 * 0.7152 + chanLin t.2.2 * 0.0722

/-- The ratio formed by `calculateContrast` (lines 349-352): the smaller
luminance plus 0.05 over the larger luminance plus 0.05. -/
noncomputable def contrastRatio (hconv : String → ℚ × ℚ × ℚ) (f b : CInput) : ℝ :=
  if getLuminance (resolveInput hconv f) > getLuminance (resolveInput hconv b) then
    (getLuminance (resolveInput hconv b) + 0.05) / (getLuminance (resolveInput hconv f) + 0.05)
  else
    (getLuminance (resolveInput hconv f) + 0.05) / (getLuminance (resolveInput hconv b) + 0.05)

/-- The four comparison results returned by `calculateContrast`. -/
structure ContrastFlags where
  aa_lvl_lg : Prop
  aa_lvl_sm : Prop
  aaa_lvl_lg : Prop
  aaa_lvl_sm : Prop

/-- Shallow embedding of `calculateContrast` (colors.js lines 338-360),
with the literal comparisons of the source (note `aa_lvl_sm` and
`aaa_lvl_lg` share the threshold 1/4.5). -/
noncomputable def calculateContrast (hconv : String → ℚ × ℚ × ℚ) (f b : CInput) :
    ContrastFlags :=
  ⟨contrastRatio hconv f b < 1 / 3,
   contrastRatio hconv f b < 1 / 4.5,
   contrastRatio hconv f b < 1 / 4.5,
   contrastRatio hconv f b < 1 / 7⟩

/-- Channel bounds of a genuine rgb triple. -/
def InRangeQ (t : ℚ × ℚ × ℚ) : Prop :=
  0 ≤ t.1 ∧ t.1 ≤ 255 ∧ 0 ≤ t.2.1 ∧ t.2.1 ≤ 255 ∧ 0 ≤ t.2.2 ∧ t.2.2 ≤ 255

/-! ## Concrete collaborator instances (for closed evaluations) -/

/-- The identity converter: every conversion function returns its
argument unchanged.  It satisfies the coherence contract and serves as a
concrete collaborator instance. -/
def idConverter : Converter := fun _ _ v => v

/-- A concrete converter instance for closed evaluations: hex-to-rgb
yields the rgb triple of `336699`; every other conversion is the
identity. -/
def cexConverter : Converter := fun m m' v =>
  match m, m' with
  | .hex, .rgb => varr [vnum 51, vnum 102, vnum 153]
  | _, _ => v

/-- A concrete gradient collaborator honoring the §6 contract: stop `k`
of a request renders as `"s<k>"`. -/
def cexGrad : GradStop := fun inp =>
  (List.range inp.stops).map (fun k => "s" ++ toString k)

/-! ## Helper lemmas -/

theorem dropWhile_append_of_ne_nil {p : Char → Bool} {l m : List Char}
    (h : l.dropWhile p ≠ []) :
    (l ++ m).dropWhile p = l.dropWhile p ++ m := by
  induction l with
  | nil => simp at h
  | cons a t ih =>
      by_cases hp : p a
      · rw [List.cons_append, List.dropWhile_cons_of_pos hp]
        rw [List.dropWhile_cons_of_pos hp] at h ⊢
        exact ih h
      · rw [List.cons_append, List.dropWhile_cons_of_neg hp,
            List.dropWhile_cons_of_neg hp]
        simp

theorem filter_length_eq_iff {p : JValue → Bool} {l : List JValue} :
    (l.filter p).length = l.length ↔ ∀ x ∈ l, p x := by
  induction l with
  | nil => simp
  | cons a t ih =>
      by_cases hp : p a
      · simp [List.filter_cons, hp, ih]
      · simp only [List.filter_cons, hp]
        constructor
        · intro h
          have := List.length_filter_le p t
          simp [List.length_cons] at h
          omega
        · intro h
          exact absurd (h a (by simp)) (by simp [hp])

theorem numLe_eq_true (bound : ℚ) (x : JValue) :
    ((match x with | vnum q => decide (q ≤ bound) | _ => false) = true) ↔
      ∃ q : ℚ, x = vnum q ∧ q ≤ bound := by
  cases x <;> simp

theorem length_eq_four_iff {α : Type} {l : List α} :
    l.length = 4 ↔ ∃ a b c d, l = [a, b, c, d] := by
  constructor
  · intro h
    match l, h with
    | a :: t, h =>
        have h3 : t.length = 3 := by simpa using h
        obtain ⟨b, c, d, rfl⟩ := List.length_eq_three.mp h3
        exact ⟨a, b, c, d, rfl⟩
  · rintro ⟨a, b, c, d, rfl⟩
    rfl

/-- The `Number("0x" + s)` parse succeeds exactly when the trailing
whitespace-trimmed body of `s` is nonempty and all hexadecimal. -/
theorem hexParseChar (s : String) :
    (!(jsStringToNumber ("0x" ++ s)).isNone) =
      (!(trimTrailingWs s.data).isEmpty && (trimTrailingWs s.data).all isHexDigitB) := by
  have hdata : ("0x" ++ s).data = '0' :: 'x' :: s.data := by
    rw [String.data_append]
    rfl
  by_cases hnil : trimTrailingWs s.data = []
  · have hall : s.data.reverse.dropWhile jsWsChar = [] := by
      have : (s.data.reverse.dropWhile jsWsChar).reverse = [] := hnil
      simpa using this
    have htrim : jsTrimWs ('0' :: 'x' :: s.data) = ['0', 'x'] := by
      unfold jsTrimWs trimTrailingWs
      rw [List.dropWhile_cons_of_neg (by decide)]
      have hrev : ('0' :: 'x' :: s.data).reverse = s.data.reverse ++ ['x', '0'] := by
        simp
      rw [hrev]
      have : (s.data.reverse ++ ['x', '0']).dropWhile jsWsChar = ['x', '0'] := by
        rw [List.dropWhile_append_of_pos ?_]
        · decide
        · intro c hc
          have := List.dropWhile_eq_nil_iff.mp hall c hc
          exact this
      rw [this]
      decide
    unfold jsStringToNumber
    rw [hdata, htrim, hnil]
    simp
  · have htail : s.data.reverse.dropWhile jsWsChar ≠ [] := by
      intro h
      apply hnil
      unfold trimTrailingWs
      rw [h]
      rfl
    have htrim : jsTrimWs ('0' :: 'x' :: s.data) = '0' :: 'x' :: trimTrailingWs s.data := by
      unfold jsTrimWs trimTrailingWs
      rw [List.dropWhile_cons_of_neg (by decide)]
      have hrev : ('0' :: 'x' :: s.data).reverse = s.data.reverse ++ ['x', '0'] := by
        simp
      rw [hrev, dropWhile_append_of_ne_nil htail]
      simp
    unfold jsStringToNumber
    rw [hdata, htrim]
    cases hc : (!(trimTrailingWs s.data).isEmpty && (trimTrailingWs s.data).all isHexDigitB) <;>
      simp [hc]

/-! ## Claim C2: the YIQ heuristic -/

/-- C2: for every rgb triple, `yiqContrastRatio` returns
`yiq = (r*299 + g*587 + b*114) / 1000` and result `"black"` exactly when
`yiq ≥ 128`; in particular `[255,255,255]` yields yiq 255 and `"black"`,
and `[0,0,0]` yields yiq 0 and `"white"`. -/
theorem C2_yiqContrastRatio :
    (∀ r g b : ℚ, yiqContrastRatio (varr [vnum r, vnum g, vnum b]) =
      .ok ⟨some ((r * 299 + g * 587 + b * 114) / 1000),
           if (r * 299 + g * 587 + b * 114) / 1000 ≥ 128 then "black" else "white"⟩)
    ∧ (∀ r g b : ℚ,
        (yiqContrastRatio (varr [vnum r, vnum g, vnum b])).map ContrastResult.result =
          .ok "black" ↔ 128 ≤ (r * 299 + g * 587 + b * 114) / 1000)
    ∧ yiqContrastRatio (varr [vnum 255, vnum 255, vnum 255]) = .ok ⟨some 255, "black"⟩
    ∧ yiqContrastRatio (varr [vnum 0, vnum 0, vnum 0]) = .ok ⟨some 0, "white"⟩ := by
  have hmain : ∀ r g b : ℚ, yiqContrastRatio (varr [vnum r, vnum g, vnum b]) =
      .ok ⟨some ((r * 299 + g * 587 + b * 114) / 1000),
           if (r * 299 + g * 587 + b * 114) / 1000 ≥ 128 then "black" else "white"⟩ :=
    fun r g b => rfl
  refine ⟨hmain, fun r g b => ?_, by norm_num [hmain], by norm_num [hmain]⟩
  rw [hmain]
  by_cases h : 128 ≤ (r * 299 + g * 587 + b * 114) / 1000 <;>
    simp [Except.map, ge_iff_le, h]

/-! ## Claim C3: hex validation -/

/-- C3 counterexample: the six-character string `"12345 "` contains a
non-hexadecimal character (a trailing space), yet `colorValidate`
accepts it, because JS `Number` trims trailing whitespace before the
hexadecimal parse. -/
theorem C3_counterexample :
    ("12345 ").data.all isHexDigitB = false ∧
      colorValidate "hex" (vstr "12345 ") = some true := by
  constructor <;> decide

/-- C3 (amended): `colorValidate("hex", v)` returns true iff `v` (after
unwrapping a single-element sequence) is a string of length exactly 6
whose body after trimming trailing whitespace is nonempty and consists
only of hexadecimal digits (so `"000000"` is valid despite its zero
numeric value, `"GGGGGG"` and strings of length 5 or 7 are invalid, and
trailing whitespace as in `"12345 "` is tolerated). -/
theorem C3_hexValidation :
    (∀ v : JValue, colorValidate "hex" v = some (hexValidSpec v))
    ∧ colorValidate "hex" (vstr "000000") = some true
    ∧ colorValidate "hex" (vstr "36699") = some false
    ∧ colorValidate "hex" (vstr "3366999") = some false
    ∧ colorValidate "hex" (vstr "GGGGGG") = some false
    ∧ colorValidate "hex" (varr [vstr "336699"]) = some true := by
  refine ⟨fun v => ?_, by decide, by decide, by decide, by decide, by decide⟩
  show some _ = some _
  congr 1
  unfold hexValidSpec
  cases unwrapHex v with
  | vstr s => dsimp only; rw [hexParseChar]; simp [Bool.and_assoc]
  | vnum q => rfl
  | vnan => rfl
  | varr l => rfl
  | vundef => rfl

/-! ## Claim C4: numeric-model validation -/

theorem rgb_validate_iff (v : JValue) :
    colorValidate "rgb" v = some true ↔
      ∃ a b c : ℚ, v = varr [vnum a, vnum b, vnum c] ∧ a ≤ 255 ∧ b ≤ 255 ∧ c ≤ 255 := by
  cases v with
  | varr l =>
      simp only [colorValidate, Option.some_inj]
      by_cases hl : l.length = 3
      · obtain ⟨x, y, z, rfl⟩ := List.length_eq_three.mp hl
        rw [if_pos hl]
        have hf := filter_length_eq_iff
          (p := fun item => match item with | vnum q => decide (q ≤ 255) | _ => false)
          (l := [x, y, z])
        simp only [List.length_cons, List.length_nil] at hf
        constructor
        · intro h
          have hall := hf.mp (by simpa using h)
          obtain ⟨qa, rfl, ha⟩ := (numLe_eq_true 255 x).mp (hall x (by simp))
          obtain ⟨qb, rfl, hb⟩ := (numLe_eq_true 255 y).mp (hall y (by simp))
          obtain ⟨qc, rfl, hc⟩ := (numLe_eq_true 255 z).mp (hall z (by simp))
          exact ⟨qa, qb, qc, rfl, ha, hb, hc⟩
        · rintro ⟨a, b, c, heq, ha, hb, hc⟩
          injection heq with heq
          injection heq with h1 heq
          injection heq with h2 heq
          injection heq with h3 _
          subst h1; subst h2; subst h3
          have : ∀ t ∈ [vnum a, vnum b, vnum c],
              (match t with | vnum q => decide (q ≤ 255) | _ => false) = true := by
            intro t ht
            simp only [List.mem_cons, List.mem_singleton] at ht
            rcases ht with rfl | rfl | rfl | h
            · simpa using ha
            · simpa using hb
            · simpa using hc
            · simp at h
          simpa using hf.mpr this
      · rw [if_neg hl]
        simp only [Bool.false_eq_true, false_iff]
        rintro ⟨a, b, c, heq, -⟩
        injection heq with heq
        apply hl
        rw [heq]
        rfl
  | vstr s => simp [colorValidate]
  | vnum q => simp [colorValidate]
  | vnan => simp [colorValidate]
  | vundef => simp [colorValidate]

theorem hsl_validate_iff (v : JValue) :
    colorValidate "hsl" v = some true ↔
      ∃ a b c : ℚ, v = varr [vnum a, vnum b, vnum c] ∧ a ≤ 360 ∧ b ≤ 100 ∧ c ≤ 100 := by
  cases v with
  | varr l =>
      simp only [colorValidate, Option.some_inj]
      by_cases hl : l.length = 3
      · obtain ⟨x, y, z, rfl⟩ := List.length_eq_three.mp hl
        rw [if_pos hl]
        constructor
        · intro h
          have h' : ([(0, x), (1, y), (2, z)].filter (fun p =>
              match p.2 with
              | vnum q => decide (q ≤ hslMaxAt p.1)
              | _ => false)).length = 3 := by
            simpa [List.enum, List.enumFrom] using h
          cases hx : (match x with | vnum q => decide (q ≤ hslMaxAt 0) | _ => false) <;>
            cases hy : (match y with | vnum q => decide (q ≤ hslMaxAt 1) | _ => false) <;>
            cases hz : (match z with | vnum q => decide (q ≤ hslMaxAt 2) | _ => false) <;>
            simp [List.filter_cons, hx, hy, hz] at h'
          obtain ⟨qa, rfl, ha⟩ := (numLe_eq_true (hslMaxAt 0) x).mp hx
          obtain ⟨qb, rfl, hb⟩ := (numLe_eq_true (hslMaxAt 1) y).mp hy
          obtain ⟨qc, rfl, hc⟩ := (numLe_eq_true (hslMaxAt 2) z).mp hz
          refine ⟨qa, qb, qc, rfl, ?_, ?_, ?_⟩
          · simpa [hslMaxAt] using ha
          · simpa [hslMaxAt] using hb
          · simpa [hslMaxAt] using hc
        · rintro ⟨a, b, c, heq, ha, hb, hc⟩
          injection heq with heq
          injection heq with h1 heq
          injection heq with h2 heq
          injection heq with h3 _
          subst h1; subst h2; subst h3
          simp [List.enum, List.enumFrom, List.filter, hslMaxAt, ha, hb, hc]
      · rw [if_neg hl]
        simp only [Bool.false_eq_true, false_iff]
        rintro ⟨a, b, c, heq, -⟩
        injection heq with heq
        apply hl
        rw [heq]
        rfl
  | vstr s => simp [colorValidate]
  | vnum q => simp [colorValidate]
  | vnan => simp [colorValidate]
  | vundef => simp [colorValidate]

theorem cmyk_validate_iff (v : JValue) :
    colorValidate "cmyk" v = some true ↔
      ∃ a b c d : ℚ, v = varr [vnum a, vnum b, vnum c, vnum d] ∧
        a ≤ 100 ∧ b ≤ 100 ∧ c ≤ 100 ∧ d ≤ 100 := by
  cases v with
  | varr l =>
      simp only [colorValidate, Option.some_inj]
      by_cases hl : l.length = 4
      · obtain ⟨x, y, z, w, rfl⟩ := length_eq_four_iff.mp hl
        rw [if_pos hl]
        have hf := filter_length_eq_iff
          (p := fun item => match item with | vnum q => decide (q ≤ 100) | _ => false)
          (l := [x, y, z, w])
        simp only [List.length_cons, List.length_nil] at hf
        constructor
        · intro h
          have hall := hf.mp (by simpa using h)
          obtain ⟨qa, rfl, ha⟩ := (numLe_eq_true 100 x).mp (hall x (by simp))
          obtain ⟨qb, rfl, hb⟩ := (numLe_eq_true 100 y).mp (hall y (by simp))
          obtain ⟨qc, rfl, hc⟩ := (numLe_eq_true 100 z).mp (hall z (by simp))
          obtain ⟨qd, rfl, hd⟩ := (numLe_eq_true 100 w).mp (hall w (by simp))
          exact ⟨qa, qb, qc, qd, rfl, ha, hb, hc, hd⟩
        · rintro ⟨a, b, c, d, heq, ha, hb, hc, hd⟩
          injection heq with heq
          injection heq with h1 heq
          injection heq with h2 heq
          injection heq with h3 heq
          injection heq with h4 _
          subst h1; subst h2; subst h3; subst h4
          have : ∀ t ∈ [vnum a, vnum b, vnum c, vnum d],
              (match t with | vnum q => decide (q ≤ 100) | _ => false) = true := by
            intro t ht
            simp only [List.mem_cons, List.mem_singleton] at ht
            rcases ht with rfl | rfl | rfl | rfl | h
            · simpa using ha
            · simpa using hb
            · simpa using hc
            · simpa using hd
            · simp at h
          simpa using hf.mpr this
      · rw [if_neg hl]
        simp only [Bool.false_eq_true, false_iff]
        rintro ⟨a, b, c, d, heq, -⟩
        injection heq with heq
        apply hl
        rw [heq]
        rfl
  | vstr s => simp [colorValidate]
  | vnum q => simp [colorValidate]
  | vnan => simp [colorValidate]
  | vundef => simp [colorValidate]

/-- C4: the numeric models validate arity, numeric type and per-channel
upper bound only — no lower bound: rgb requires exactly 3 numbers each
≤ 255, hsl exactly 3 numbers bounded per position by 360/100/100, cmyk
exactly 4 numbers each ≤ 100; `[0,0,0]` and `[-1,0,0]` are valid rgb,
`[256,0,0]` is not, `[360,100,100]` is valid hsl, `[361,0,0]` is not,
and a 5-entry cmyk sequence is invalid regardless of its entries. -/
theorem C4_numericValidation :
    (∀ v : JValue, colorValidate "rgb" v = some true ↔
      ∃ a b c : ℚ, v = varr [vnum a, vnum b, vnum c] ∧ a ≤ 255 ∧ b ≤ 255 ∧ c ≤ 255)
    ∧ (∀ v : JValue, colorValidate "hsl" v = some true ↔
      ∃ a b c : ℚ, v = varr [vnum a, vnum b, vnum c] ∧ a ≤ 360 ∧ b ≤ 100 ∧ c ≤ 100)
    ∧ (∀ v : JValue, colorValidate "cmyk" v = some true ↔
      ∃ a b c d : ℚ, v = varr [vnum a, vnum b, vnum c, vnum d] ∧
        a ≤ 100 ∧ b ≤ 100 ∧ c ≤ 100 ∧ d ≤ 100)
    ∧ colorValidate "rgb" (varr [vnum 0, vnum 0, vnum 0]) = some true
    ∧ colorValidate "rgb" (varr [vnum 256, vnum 0, vnum 0]) = some false
    ∧ colorValidate "rgb" (varr [vnum (-1), vnum 0, vnum 0]) = some true
    ∧ colorValidate "hsl" (varr [vnum 360, vnum 100, vnum 100]) = some true
    ∧ colorValidate "hsl" (varr [vnum 361, vnum 0, vnum 0]) = some false
    ∧ (∀ x1 x2 x3 x4 x5 : JValue,
        colorValidate "cmyk" (varr [x1, x2, x3, x4, x5]) = some false) := by
  refine ⟨rgb_validate_iff, hsl_validate_iff, cmyk_validate_iff,
    by decide, by decide, by decide, by decide, by decide, fun x1 x2 x3 x4 x5 => rfl⟩

/-! ## Claims C8 and C9: the Converter Facade -/

theorem colorConvert_tag (c : Converter) (m : Model) (v : JValue) :
    colorConvert c (tagOf m) v =
      some ⟨convVal c m .hex v, convVal c m .rgb v, convVal c m .hsl v, convVal c m .cmyk v⟩ := by
  cases m <;> simp [colorConvert, tagOf, convVal]

theorem field_convVal (c : Converter) (m : Model) (v : JValue) (m' : Model) :
    (ColorSet.mk (convVal c m .hex v) (convVal c m .rgb v)
      (convVal c m .hsl v) (convVal c m .cmyk v)).field m' = convVal c m m' v := by
  cases m' <;> rfl

/-- C8: for every recognized model tag, the assembled ColorSet holds the
input verbatim under its own key — regardless of the converter, no
self-conversion is applied — and the other three keys are the three
converter-collaborator calls from that model. -/
theorem C8_colorConvert_assembly :
    (∀ (c : Converter) (v : JValue),
      colorConvert c "hex" v = some ⟨v, c .hex .rgb v, c .hex .hsl v, c .hex .cmyk v⟩ ∧
      colorConvert c "rgb" v = some ⟨c .rgb .hex v, v, c .rgb .hsl v, c .rgb .cmyk v⟩ ∧
      colorConvert c "hsl" v = some ⟨c .hsl .hex v, c .hsl .rgb v, v, c .hsl .cmyk v⟩ ∧
      colorConvert c "cmyk" v = some ⟨c .cmyk .hex v, c .cmyk .rgb v, c .cmyk .hsl v, v⟩)
    ∧ (∀ (c : Converter) (m : Model) (v : JValue),
        (colorConvert c (tagOf m) v).map (fun S => S.field m) = some v) := by
  constructor
  · intro c v
    exact ⟨rfl, rfl, rfl, rfl⟩
  · intro c m v
    cases m <;> rfl

/-- C9: under the spec's conversion-consistency contract on the external
converter (§6), converting a valid value, extracting any field of the
resulting ColorSet and reconverting it under that field's model
reproduces the same ColorSet. -/
theorem C9_roundTrip (c : Converter) (hc : Coherent c) (m m' : Model) (v : JValue)
    (hv : colorValidate (tagOf m) v = some true) :
    ((colorConvert c (tagOf m) v).bind fun S => colorConvert c (tagOf m') (S.field m')) =
      colorConvert c (tagOf m) v := by
  have key : ∀ m'' : Model, convVal c m' m'' (convVal c m m' v) = convVal c m m'' v := by
    intro m''
    by_cases h1 : m' = m
    · subst h1
      simp [convVal]
    · unfold convVal
      rw [if_neg h1]
      by_cases h2 : m'' = m'
      · subst h2
        rw [if_pos rfl, if_neg h1]
      · rw [if_neg h2]
        exact hc m m' m'' v hv
  rw [colorConvert_tag c m v, Option.some_bind, field_convVal,
      colorConvert_tag c m' (convVal c m m' v)]
  simp only [key]

/-- Witness for C9: the identity converter satisfies the coherence
contract, `"336699"` is a valid hex value, and the hex-to-rgb round trip
reproduces the ColorSet. -/
theorem C9_witness :
    Coherent idConverter ∧
    colorValidate (tagOf .hex) (vstr "336699") = some true ∧
    ((colorConvert idConverter (tagOf .hex) (vstr "336699")).bind
        fun S => colorConvert idConverter (tagOf .rgb) (S.field .rgb)) =
      colorConvert idConverter (tagOf .hex) (vstr "336699") := by
  have hcoh : Coherent idConverter := by
    intro m m' m'' v hv
    by_cases h : m'' = m <;> simp [idConverter, h]
  exact ⟨hcoh, by decide,
    C9_roundTrip idConverter hcoh .hex .rgb (vstr "336699") (by decide)⟩

/-! ## Claim C6: gradient-seed construction -/

theorem jsNumToString_int (i : ℤ) : jsNumToString ((i : ℚ)) = toString i := by
  unfold jsNumToString
  rw [if_pos (Rat.den_intCast i), Rat.num_intCast]

/-- C6: for a hex string passing validation, `generateGrandients`
returns exactly the 8 stops of the rgb-space re-anchored ramp (anchored
at stops 1 and 6 of the hex-space ramp over `#212121`, the input and
`#FFFFFF`, around the input's rgb rendering); for a hex string failing
validation it returns the empty sequence. -/
theorem C6_generateGrandients (g : GradStop) (c : Converter) (s : String)
    (i1 i2 i3 : ℤ)
    (hg : ∀ inp, (g inp).length = inp.stops)
    (hc : c .hex .rgb (vstr s) = varr [vnum (i1 : ℚ), vnum (i2 : ℚ), vnum (i3 : ℚ)]) :
    (colorValidate "hex" (vstr s) = some true →
      ∃ l, generateGrandients g c (vstr s) = .ok l ∧ l.length = 8 ∧
        l = g ⟨8, "rgb",
          [gIdx (g ⟨8, "hex", [vstr "#212121", vstr ("#" ++ s), vstr "#FFFFFF"]⟩) 1,
           vstr ("rgb(" ++ String.intercalate ","
                   [toString i1, toString i2, toString i3] ++ ")"),
           gIdx (g ⟨8, "hex", [vstr "#212121", vstr ("#" ++ s), vstr "#FFFFFF"]⟩) 6]⟩)
    ∧ (colorValidate "hex" (vstr s) ≠ some true →
        generateGrandients g c (vstr s) = .ok []) := by
  constructor
  · intro hval
    unfold generateGrandients
    rw [hval, hc]
    refine ⟨_, rfl, hg _, ?_⟩
    have hjoin : List.map jsJoinElemToString
        [vnum (i1 : ℚ), vnum (i2 : ℚ), vnum (i3 : ℚ)] =
        [toString i1, toString i2, toString i3] := by
      simp [jsJoinElemToString, jsPrimToString, jsNumToString_int]
    show g ⟨8, "rgb", [_, vstr ("rgb(" ++ String.intercalate ","
        (List.map jsJoinElemToString [vnum (i1 : ℚ), vnum (i2 : ℚ), vnum (i3 : ℚ)]) ++ ")"), _]⟩ = _
    rw [hjoin]
    rfl
  · intro hval
    unfold generateGrandients
    cases hv : colorValidate "hex" (vstr s) with
    | none => rfl
    | some b =>
        cases b with
        | false => rfl
        | true => exact absurd hv hval

/-- Witness for C6: the concrete gradient collaborator honors the §6
length contract, the concrete converter maps `"336699"` to an integer
rgb triple, `"336699"` validates, and the generated ramp has exactly 8
stops. -/
theorem C6_witness :
    (∀ inp, (cexGrad inp).length = inp.stops) ∧
    cexConverter .hex .rgb (vstr "336699") =
      varr [vnum ((51 : ℤ) : ℚ), vnum ((102 : ℤ) : ℚ), vnum ((153 : ℤ) : ℚ)] ∧
    colorValidate "hex" (vstr "336699") = some true ∧
    (∃ l, generateGrandients cexGrad cexConverter (vstr "336699") = .ok l ∧
      l.length = 8) := by
  have hg : ∀ inp, (cexGrad inp).length = inp.stops := by
    intro inp
    simp [cexGrad]
  have hc : cexConverter .hex .rgb (vstr "336699") =
      varr [vnum ((51 : ℤ) : ℚ), vnum ((102 : ℤ) : ℚ), vnum ((153 : ℤ) : ℚ)] := by
    norm_num [cexConverter]
  have hval : colorValidate "hex" (vstr "336699") = some true := by decide
  obtain ⟨l, h1, h2, -⟩ :=
    (C6_generateGrandients cexGrad cexConverter "336699" 51 102 153 hg hc).1 hval
  exact ⟨hg, hc, hval, l, h1, h2⟩

/-! ## Claims C5 and C10: WCAG contrast -/

theorem chanLin_nonneg (v : ℚ) (hv : 0 ≤ v) : 0 ≤ chanLin v := by
  unfold chanLin
  have hx0 : (0 : ℝ) ≤ (v : ℝ) / 255 := by positivity
  split_ifs with h
  · positivity
  · apply Real.rpow_nonneg
    apply div_nonneg
    · linarith
    · norm_num

theorem getLuminance_nonneg (t : ℚ × ℚ × ℚ) (h : InRangeQ t) : 0 ≤ getLuminance t := by
  obtain ⟨h1, -, h3, -, h5, -⟩ := h
  have c1 := chanLin_nonneg t.1 h1
  have c2 := chanLin_nonneg t.2.1 h3
  have c3 := chanLin_nonneg t.2.2 h5
  unfold getLuminance
  nlinarith

theorem contrastRatio_comm (hconv : String → ℚ × ℚ × ℚ) (a b : CInput) :
    contrastRatio hconv a b = contrastRatio hconv b a := by
  unfold contrastRatio
  rcases lt_trichotomy (getLuminance (resolveInput hconv a))
      (getLuminance (resolveInput hconv b)) with h | h | h
  · rw [if_neg (by exact not_lt.mpr h.le), if_pos h]
  · rw [h]
  · rw [if_pos h, if_neg (by exact not_lt.mpr h.le)]

/-- C10: `calculateContrast` is symmetric in its two arguments — the
ratio always places the smaller luminance in the numerator, so swapping
foreground and background yields the same four comparison results. -/
theorem C10_calculateContrast_symmetric :
    ∀ (hconv : String → ℚ × ℚ × ℚ) (a b : CInput),
      calculateContrast hconv a b = calculateContrast hconv b a := by
  intro hconv a b
  unfold calculateContrast
  rw [contrastRatio_comm]

theorem contrastRatio_minmax (hconv : String → ℚ × ℚ × ℚ) (f b : CInput) :
    contrastRatio hconv f b =
      (min (getLuminance (resolveInput hconv f)) (getLuminance (resolveInput hconv b)) + 0.05) /
      (max (getLuminance (resolveInput hconv f)) (getLuminance (resolveInput hconv b)) + 0.05) := by
  unfold contrastRatio
  rcases le_or_lt (getLuminance (resolveInput hconv f))
      (getLuminance (resolveInput hconv b)) with h | h
  · rw [if_neg (not_lt.mpr h), min_eq_left h, max_eq_right h]
  · rw [if_pos h, min_eq_right h.le, max_eq_left h.le]

theorem resolve_white : resolveInput hexToRgbSpec (.hexStr "FFFFFF") = (255, 255, 255) := by
  decide

theorem resolve_black : resolveInput hexToRgbSpec (.hexStr "000000") = (0, 0, 0) := by
  decide

theorem chanLin_255 : chanLin 255 = 1 := by
  unfold chanLin
  rw [show ((255 : ℚ) : ℝ) / 255 = 1 by norm_num, if_neg (by norm_num),
      show ((1 : ℝ) + 0.055) / 1.055 = 1 by norm_num]
  exact Real.one_rpow _

theorem chanLin_0 : chanLin 0 = 0 := by
  unfold chanLin
  rw [show ((0 : ℚ) : ℝ) / 255 = 0 by norm_num, if_pos (by norm_num)]
  norm_num

theorem lum_white : getLuminance (255, 255, 255) = 1 := by
  show chanLin 255 * 0.2126 + chanLin 255 * 0.7152 + chanLin 255 * 0.0722 = 1
  rw [chanLin_255]
  norm_num

theorem lum_black : getLuminance (0, 0, 0) = 0 := by
  show chanLin 0 * 0.2126 + chanLin 0 * 0.7152 + chanLin 0 * 0.0722 = 0
  rw [chanLin_0]
  norm_num

theorem ratio_white_black :
    contrastRatio hexToRgbSpec (.hexStr "FFFFFF") (.hexStr "000000") = 0.05 / 1.05 := by
  unfold contrastRatio
  rw [resolve_white, resolve_black, lum_white, lum_black, if_pos (by norm_num)]
  norm_num

/-- C5: `calculateContrast` reports the four literal comparisons of the
ratio against 1/3, 1/4.5, 1/4.5 and 1/7 (the coded thresholds, with the
aa-large and aaa-large values swapped relative to the WCAG convention
left intact); the ratio is the smaller luminance plus 0.05 over the
larger plus 0.05, hence at most 1 on genuine rgb triples; and for
foreground `"FFFFFF"` over background `"000000"` all four comparisons
hold. -/
theorem C5_calculateContrast :
    (∀ (hconv : String → ℚ × ℚ × ℚ) (f b : CInput),
      calculateContrast hconv f b =
        ⟨contrastRatio hconv f b < 1 / 3, contrastRatio hconv f b < 1 / 4.5,
         contrastRatio hconv f b < 1 / 4.5, contrastRatio hconv f b < 1 / 7⟩ ∧
      contrastRatio hconv f b =
        (min (getLuminance (resolveInput hconv f)) (getLuminance (resolveInput hconv b)) + 0.05) /
        (max (getLuminance (resolveInput hconv f)) (getLuminance (resolveInput hconv b)) + 0.05))
    ∧ (∀ (hconv : String → ℚ × ℚ × ℚ) (f b : CInput),
        InRangeQ (resolveInput hconv f) → InRangeQ (resolveInput hconv b) →
        contrastRatio hconv f b ≤ 1)
    ∧ ((calculateContrast hexToRgbSpec (.hexStr "FFFFFF") (.hexStr "000000")).aa_lvl_lg ∧
       (calculateContrast hexToRgbSpec (.hexStr "FFFFFF") (.hexStr "000000")).aa_lvl_sm ∧
       (calculateContrast hexToRgbSpec (.hexStr "FFFFFF") (.hexStr "000000")).aaa_lvl_lg ∧
       (calculateContrast hexToRgbSpec (.hexStr "FFFFFF") (.hexStr "000000")).aaa_lvl_sm) := by
  refine ⟨fun hconv f b => ⟨rfl, contrastRatio_minmax hconv f b⟩, ?_, ?_, ?_, ?_, ?_⟩
  · intro hconv f b hf hb
    have h1 := getLuminance_nonneg _ hf
    have h2 := getLuminance_nonneg _ hb
    unfold contrastRatio
    split_ifs with h
    · rw [div_le_one (by linarith)]
      linarith
    · rw [div_le_one (by linarith)]
      push_neg at h
      linarith
  · show contrastRatio hexToRgbSpec (.hexStr "FFFFFF") (.hexStr "000000") < 1 / 3
    rw [ratio_white_black]
    norm_num
  · show contrastRatio hexToRgbSpec (.hexStr "FFFFFF") (.hexStr "000000") < 1 / 4.5
    rw [ratio_white_black]
    norm_num
  · show contrastRatio hexToRgbSpec (.hexStr "FFFFFF") (.hexStr "000000") < 1 / 4.5
    rw [ratio_white_black]
    norm_num
  · show contrastRatio hexToRgbSpec (.hexStr "FFFFFF") (.hexStr "000000") < 1 / 7
    rw [ratio_white_black]
    norm_num

/-- Witness for C5: at the all-black pair of triples the range
hypotheses hold concretely and the ratio is at most 1. -/
theorem C5_witness :
    InRangeQ (resolveInput hexToRgbSpec (.triple 0 0 0)) ∧
    contrastRatio hexToRgbSpec (.triple 0 0 0) (.triple 0 0 0) ≤ 1 := by
  have hr : InRangeQ (resolveInput hexToRgbSpec (.triple 0 0 0)) := by
    show InRangeQ (0, 0, 0)
    norm_num [InRangeQ]
  exact ⟨hr, C5_calculateContrast.2.1 hexToRgbSpec (.triple 0 0 0) (.triple 0 0 0) hr hr⟩

/-! ## Claim C1: degraded behaviour on an invalid derived hex -/

theorem generateGrandients_invalid (g : GradStop) (c : Converter) (hex : JValue)
    (h : colorValidate "hex" hex ≠ some true) :
    generateGrandients g c hex = .ok [] := by
  unfold generateGrandients
  cases hv : colorValidate "hex" hex with
  | none => rfl
  | some b =>
      cases b with
      | false => rfl
      | true => exact absurd hv h

/-- C1 (amended): for every input whose converted hex fails hex
validation the gradient ramp is indeed empty, but `generateCssColor`
does not return a Theme: whichever way the contrast decision goes, the
dark color is an absent value (indexing the empty ramp) and the
derivation of the dark-transparent color calls `.replace` on it, raising
a TypeError. -/
theorem C1_generateCssColor_invalid_hex (c : Converter) (g : GradStop)
    (type : String) (value : JValue)
    (hinv : ∀ cs, colorConvert c type value = some cs →
      colorValidate "hex" cs.hex ≠ some true) :
    (∀ cs, colorConvert c type value = some cs →
      generateGrandients g c cs.hex = .ok []) ∧
    ∃ e, generateCssColor c g type value = .error e := by
  constructor
  · intro cs hcs
    exact generateGrandients_invalid g c cs.hex (hinv cs hcs)
  · unfold generateCssColor
    cases hcc : colorConvert c type value with
    | none => exact ⟨_, rfl⟩
    | some cs =>
        have hginv := generateGrandients_invalid g c cs.hex (hinv cs hcc)
        dsimp only
        cases hy : yiqContrastRatio cs.rgb with
        | error e => exact ⟨e, rfl⟩
        | ok ct =>
            dsimp only
            rw [hginv]
            by_cases hres : ct.result = "black" <;>
              simp [hres, gIdx, jsAsString]

/-- Witness for C1: with the concrete collaborators and input hex
`"GGGGGG"` the hypothesis holds and `generateCssColor` yields an
error. -/
theorem C1_witness :
    (∀ cs, colorConvert cexConverter "hex" (vstr "GGGGGG") = some cs →
      colorValidate "hex" cs.hex ≠ some true) ∧
    (∀ cs, colorConvert cexConverter "hex" (vstr "GGGGGG") = some cs →
      generateGrandients cexGrad cexConverter cs.hex = .ok []) ∧
    (∃ e, generateCssColor cexConverter cexGrad "hex" (vstr "GGGGGG") = .error e) := by
  have hinv : ∀ cs, colorConvert cexConverter "hex" (vstr "GGGGGG") = some cs →
      colorValidate "hex" cs.hex ≠ some true := by
    intro cs hcs
    injection hcs with h
    rw [← h]
    decide
  obtain ⟨h1, h2⟩ :=
    C1_generateCssColor_invalid_hex cexConverter cexGrad "hex" (vstr "GGGGGG") hinv
  exact ⟨hinv, h1, h2⟩

theorem yiq_cex :
    yiqContrastRatio (varr [vnum 51, vnum 102, vnum 153]) =
      .ok ⟨some ((51 * 299 + 102 * 587 + 153 * 114 : ℚ) / 1000), "white"⟩ := by
  have h0 : yiqContrastRatio (varr [vnum 51, vnum 102, vnum 153]) =
      .ok ⟨some ((51 * 299 + 102 * 587 + 153 * 114 : ℚ) / 1000),
           if (51 * 299 + 102 * 587 + 153 * 114 : ℚ) / 1000 ≥ 128 then "black"
           else "white"⟩ := rfl
  rw [h0, if_neg (by norm_num)]

/-- Counterexample for C1 as stated: on the invalid hex `"GGGGGG"`,
`generateCssColor` does not return a complete Theme — it raises the
modelled TypeError from `.replace` on the absent dark color. -/
theorem C1_counterexample :
    generateCssColor cexConverter cexGrad "hex" (vstr "GGGGGG") =
      .error "TypeError: Cannot read properties of undefined (reading replace)" := by
  have hconv : colorConvert cexConverter "hex" (vstr "GGGGGG") =
      some ⟨vstr "GGGGGG", varr [vnum 51, vnum 102, vnum 153],
            vstr "GGGGGG", vstr "GGGGGG"⟩ := rfl
  have hgr : generateGrandients cexGrad cexConverter (vstr "GGGGGG") = .ok [] := rfl
  unfold generateCssColor
  rw [hconv]
  dsimp only
  rw [yiq_cex]
  dsimp only
  rw [hgr]
  simp [gIdx, jsAsString]

/-! ## Claim C7: order of the Theme's gradients field -/

theorem gIdx_getD {l : List String} {i : ℕ} (h : i < l.length) :
    gIdx l i = vstr (l.getD i "") := by
  unfold gIdx
  rw [dif_pos h, List.getD_eq_getElem l "" h]

/-- C7 (amended): on a fully valid input the Theme's `gradients` field
has exactly 8 entries, but in reversed (lightest-anchor to
darkest-anchor) order: the in-place `gradients.reverse()` performed for
the `--gradient-N` declarations mutates the returned sequence.  The
caller-facing `calculateColor` reverses again in place, so its returned
`gradients` are in the original darkest-to-lightest ramp order. -/
theorem C7_theme_gradients (c : Converter) (g : GradStop) (type : String)
    (value : JValue) (cs : ColorSet) (r1 g1 b1 : ℚ) (l : List JValue)
    (hg : ∀ inp, (g inp).length = inp.stops)
    (hcc : colorConvert c type value = some cs)
    (hrgb : cs.rgb = varr [vnum r1, vnum g1, vnum b1])
    (hhex : colorValidate "hex" cs.hex = some true)
    (hcv : c .hex .rgb cs.hex = varr l) :
    ∃ t gl, generateGrandients g c cs.hex = .ok gl ∧
      generateCssColor c g type value = .ok t ∧
      t.gradients = gl.reverse ∧
      t.gradients.length = 8 ∧
      (∀ anim : Bool,
        (calculateColorPure c g type value anim).map CalcResult.gradients = .ok gl) := by
  have hgrad : ∃ gl, generateGrandients g c cs.hex = .ok gl ∧ gl.length = 8 := by
    unfold generateGrandients
    rw [hhex]
    dsimp only
    rw [hcv]
    exact ⟨_, rfl, hg _⟩
  obtain ⟨gl, hgl, hlen⟩ := hgrad
  have hy : yiqContrastRatio cs.rgb =
      .ok ⟨some ((r1 * 299 + g1 * 587 + b1 * 114) / 1000),
           if (r1 * 299 + g1 * 587 + b1 * 114) / 1000 ≥ 128 then "black"
           else "white"⟩ := by
    rw [hrgb]
    rfl
  have h7 : gIdx gl 7 = vstr (gl.getD 7 "") := gIdx_getD (by omega)
  have h1 : gIdx gl 1 = vstr (gl.getD 1 "") := gIdx_getD (by omega)
  have hmain : ∃ t, generateCssColor c g type value = .ok t ∧
      t.gradients = gl.reverse := by
    unfold generateCssColor
    rw [hcc]
    dsimp only
    rw [hy]
    dsimp only
    rw [hgl]
    by_cases hb : (if (r1 * 299 + g1 * 587 + b1 * 114) / 1000 ≥ 128 then "black"
        else "white") = "black" <;>
      simp only [hb, h7, h1] <;>
      simp [jsAsString, rgbToArray, h7, h1]
  obtain ⟨t, ht, hgrads⟩ := hmain
  refine ⟨t, gl, hgl, ht, hgrads, ?_, ?_⟩
  · rw [hgrads, List.length_reverse, hlen]
  · intro anim
    unfold calculateColorPure
    rw [ht]
    dsimp only [Except.map]
    rw [hgrads, List.reverse_reverse]

/-- Witness for C7 (amended): the concrete collaborators and the valid
input hex `"336699"` discharge every hypothesis, and the Theme carries
the 8 reversed stops. -/
theorem C7_witness :
    (∀ inp, (cexGrad inp).length = inp.stops) ∧
    colorConvert cexConverter "hex" (vstr "336699") =
      some ⟨vstr "336699", varr [vnum 51, vnum 102, vnum 153],
            vstr "336699", vstr "336699"⟩ ∧
    colorValidate "hex" (vstr "336699") = some true ∧
    (∃ t gl, generateGrandients cexGrad cexConverter
        (ColorSet.mk (vstr "336699") (varr [vnum 51, vnum 102, vnum 153])
          (vstr "336699") (vstr "336699")).hex = .ok gl ∧
      generateCssColor cexConverter cexGrad "hex" (vstr "336699") = .ok t ∧
      t.gradients = gl.reverse ∧
      t.gradients.length = 8 ∧
      (∀ anim : Bool,
        (calculateColorPure cexConverter cexGrad "hex" (vstr "336699") anim).map
          CalcResult.gradients = .ok gl)) := by
  have hg : ∀ inp, (cexGrad inp).length = inp.stops := fun inp => by simp [cexGrad]
  exact ⟨hg, rfl, by decide,
    C7_theme_gradients cexConverter cexGrad "hex" (vstr "336699") _ 51 102 153
      [vnum 51, vnum 102, vnum 153] hg rfl rfl (by decide) rfl⟩

/-- Counterexample for C7 as stated: the ramp is generated darkest-first
as `["s0", …, "s7"]`, but the `gradients` field of the returned Theme is
the reversed sequence — the claim's "ordered from the darkest anchor to
the lightest anchor" fails on the Theme. -/
theorem C7_counterexample :
    generateGrandients cexGrad cexConverter (vstr "336699") =
      .ok ["s0", "s1", "s2", "s3", "s4", "s5", "s6", "s7"] ∧
    (generateCssColor cexConverter cexGrad "hex" (vstr "336699")).map Theme.gradients =
      .ok ["s7", "s6", "s5", "s4", "s3", "s2", "s1", "s0"] ∧
    (["s7", "s6", "s5", "s4", "s3", "s2", "s1", "s0"] : List String) ≠
      ["s0", "s1", "s2", "s3", "s4", "s5", "s6", "s7"] := by
  have hgr : generateGrandients cexGrad cexConverter (vstr "336699") =
      .ok ["s0", "s1", "s2", "s3", "s4", "s5", "s6", "s7"] := rfl
  have hconv : colorConvert cexConverter "hex" (vstr "336699") =
      some ⟨vstr "336699", varr [vnum 51, vnum 102, vnum 153],
            vstr "336699", vstr "336699"⟩ := rfl
  refine ⟨hgr, ?_, by decide⟩
  unfold generateCssColor
  rw [hconv]
  dsimp only
  rw [yiq_cex]
  dsimp only
  rw [hgr]
  simp only [gIdx, jsAsString, rgbToArray]
  rfl

end Iro
